import Mathlib

/-!
Shallow embedding of the finite-volume local-assembly engine of this
repository, together with proofs of the specified properties.

The embedded code comes from:
* `dumux/decoupled/1p/diffusion/fv/fvpressure1p.hh` (`FVPressure1P`:
  `assemble`, `setPressureHard`, the hard-constraint preamble of `solve`);
* `dumux/boxmodels/1p2c/1p2clocalresidual.hh`
  (`OnePTwoCLocalResidual::computeFlux`);
* `dumux/boxmodels/common/boxelementcontext.hh` (`BoxElementContext`:
  `updateAll`, `updateFVElemGeom`, `saveScvVars`, `restoreScvVars`,
  `evalPointVolVars`);
* `opm/models/discretization/ecfv/ecfvdiscretization.hh`
  (scheme property specializations and `EcfvDiscretization::deserialize`).

Scalars are modelled by `ℚ`; mesh data that the translation needs is passed
in explicitly (cell lists, intersection lists, per-cell fluid data).
-/

/-- Pointwise update of a one-index function (models writing one entry of a
vector such as `f_[i] = v`). -/
def updFun {α : Type} (g : ℕ → α) (i : ℕ) (v : α) : ℕ → α :=
  fun a => if a = i then v else g a

/-- Pointwise update of a two-index function (models writing one entry of a
matrix such as `A_[i][j] = v`). -/
def updFun2 {α : Type} (g : ℕ → ℕ → α) (i j : ℕ) (v : α) : ℕ → ℕ → α :=
  fun a b => if a = i ∧ b = j then v else g a b

/-- Fold over a list which also threads a running counter, mirroring the
`for (...; ++isIt, ++isIndex)` traversals of the C++ code. -/
def foldIdx {σ α : Type} (g : ℕ → σ → α → σ) : ℕ → σ → List α → σ
  | _, s, [] => s
  | i, s, x :: xs => foldIdx g (i + 1) (g i s x) xs

/-! ## BoxElementContext (boxelementcontext.hh)

The per-element cache.  `priVars`/`volVars` model the `scvVars_` vector of
`ScvStore_` records (first index: sub-control volume, second index: time
level); `scvIdxSaved`, `scvVarsSaved` and `priVarsSaved` model the
members of the same names (`scvIdxSaved_` is a C++ `int`, hence `ℤ`,
set to `-1` by `restoreScvVars`). -/
structure BoxCtx (PV VV : Type) where
  priVars : ℕ → ℕ → PV
  volVars : ℕ → ℕ → VV
  scvIdxSaved : ℤ
  scvVarsSaved : VV
  priVarsSaved : PV

/-- `BoxElementContext::saveScvVars(scvIdx)`: records the index and snapshots
the time-level-0 volume variables and primary variables of that SCV. -/
def saveScvVars {PV VV : Type} (c : BoxCtx PV VV) (scvIdx : ℕ) : BoxCtx PV VV :=
  { c with
    scvIdxSaved := (scvIdx : ℤ)
    scvVarsSaved := c.volVars scvIdx 0
    priVarsSaved := c.priVars scvIdx 0 }

/-- `BoxElementContext::restoreScvVars(scvIdx)`: clears the saved index
(sets it to `-1`) and writes the snapshots back into time level 0. -/
def restoreScvVars {PV VV : Type} (c : BoxCtx PV VV) (scvIdx : ℕ) : BoxCtx PV VV :=
  { c with
    scvIdxSaved := -1
    priVars := updFun2 c.priVars scvIdx 0 c.priVarsSaved
    volVars := updFun2 c.volVars scvIdx 0 c.scvVarsSaved }

/-- `BoxElementContext::evalPointVolVars(scvIdx, timeIdx)`: for nonzero time
indices falls through to `volVars`; at time level 0 it returns the saved
snapshot when `scvIdxSaved_ == scvIdx` and `volVars` otherwise. -/
def evalPointVolVars {PV VV : Type} (c : BoxCtx PV VV) (scvIdx timeIdx : ℕ) : VV :=
  if timeIdx ≠ 0 then c.volVars scvIdx timeIdx
  else if c.scvIdxSaved = (scvIdx : ℤ) then c.scvVarsSaved
  else c.volVars scvIdx 0

/-! ### Buffer sizes of the context (`updateFVElemGeom`) -/

/-- The sizes of the `scvVars_` and `scvfVars_` buffers of the context. -/
structure BufSizes where
  scvSize : ℕ
  scvfSize : ℕ
deriving DecidableEq

/-- The buffer-resizing step of `BoxElementContext::updateFVElemGeom`:
`std::vector::resize` is invoked only when the vertex count of the new element
(resp. edge count) strictly exceeds the current size, and then grows the
buffer to exactly that count. -/
def updateFVElemGeomSizes (s : BufSizes) (numVertices numEdges : ℕ) : BufSizes :=
  { scvSize := if numVertices > s.scvSize then numVertices else s.scvSize
    scvfSize := if numEdges > s.scvfSize then numEdges else s.scvfSize }

/-- Helper: buffer sizes never decrease along any sequence of
`updateFVElemGeom` calls. -/
lemma bufSizes_foldl_mono (calls : List (ℕ × ℕ)) : ∀ s : BufSizes,
    s.scvSize ≤ (calls.foldl (fun st c => updateFVElemGeomSizes st c.1 c.2) s).scvSize ∧
    s.scvfSize ≤ (calls.foldl (fun st c => updateFVElemGeomSizes st c.1 c.2) s).scvfSize := by
  induction calls with
  | nil => intro s; exact ⟨le_refl _, le_refl _⟩
  | cons c cs ih =>
    intro s
    have hstep₁ : s.scvSize ≤ (updateFVElemGeomSizes s c.1 c.2).scvSize := by
      simp only [updateFVElemGeomSizes]
      split <;> omega
    have hstep₂ : s.scvfSize ≤ (updateFVElemGeomSizes s c.1 c.2).scvfSize := by
      simp only [updateFVElemGeomSizes]
      split <;> omega
    have h := ih (updateFVElemGeomSizes s c.1 c.2)
    exact ⟨le_trans hstep₁ (by simpa using h.1), le_trans hstep₂ (by simpa using h.2)⟩

/-! ### The update/trace model of `updateAll` -/

/-- The observable actions of `BoxElementContext` during `updateAll`:
binding the element geometry, a `VolumeVariables::update` for one SCV at one
time level, and a `FluxVariables::update` for one SCV face at one time
level. -/
inductive CtxEvent where
  | bindGeom : CtxEvent
  | updScv (scvIdx timeIdx : ℕ) : CtxEvent
  | updScvf (scvfIdx timeIdx : ℕ) : CtxEvent
deriving DecidableEq

/-- Trace of `updateScvVars(timeIdx)`: one `VolumeVariables::update` per
sub-control volume, at the given time level. -/
def updateScvVarsTrace (timeIdx nScv : ℕ) : List CtxEvent :=
  (List.range nScv).map (fun s => CtxEvent.updScv s timeIdx)

/-- Trace of `updateAllScvVars()`: `updateScvVars(timeIdx)` for every time
level of the history window (outer loop over `timeIdx`). -/
def updateAllScvVarsTrace (histSize nScv : ℕ) : List CtxEvent :=
  (List.range histSize).flatMap (fun t => updateScvVarsTrace t nScv)

/-- Trace of `updateAllScvfVars()`: one `FluxVariables::update` per
sub-control-volume face, always with `timeIdx = 0`. -/
def updateAllScvfVarsTrace (nScvf : ℕ) : List CtxEvent :=
  (List.range nScvf).map (fun k => CtxEvent.updScvf k 0)

/-- Trace of `updateAll(elem)`: `updateFVElemGeom(elem)`, then
`updateAllScvVars()`, then `updateAllScvfVars()`. -/
def updateAllTrace (histSize nScv nScvf : ℕ) : List CtxEvent :=
  CtxEvent.bindGeom :: (updateAllScvVarsTrace histSize nScv ++ updateAllScvfVarsTrace nScvf)

/-- Helper: every event emitted by `updateAllScvVars` is a volume-variables
update. -/
lemma mem_updateAllScvVarsTrace {e : CtxEvent} {histSize nScv : ℕ}
    (h : e ∈ updateAllScvVarsTrace histSize nScv) :
    ∃ s t, e = CtxEvent.updScv s t := by
  simp only [updateAllScvVarsTrace, updateScvVarsTrace, List.mem_flatMap,
    List.mem_map, List.mem_range] at h
  obtain ⟨t, _, s, _, rfl⟩ := h
  exact ⟨s, t, rfl⟩

/-- Helper: every event emitted by `updateAllScvfVars` is a flux-variables
update at time level 0. -/
lemma mem_updateAllScvfVarsTrace {e : CtxEvent} {nScvf : ℕ}
    (h : e ∈ updateAllScvfVarsTrace nScvf) :
    ∃ k, e = CtxEvent.updScvf k 0 := by
  simp only [updateAllScvfVarsTrace, List.mem_map, List.mem_range] at h
  obtain ⟨k, _, rfl⟩ := h
  exact ⟨k, rfl⟩

/-! ## OnePTwoCLocalResidual::computeFlux (1p2clocalresidual.hh)

The world dimension is instantiated with 2; vectors and tensors are
explicit pairs/quadruples of rationals. -/

/-- A 2-vector of scalars. -/
structure Vec2 where
  x : ℚ
  y : ℚ
deriving DecidableEq

/-- A 2x2 tensor of scalars. -/
structure Mat2 where
  xx : ℚ
  xy : ℚ
  yx : ℚ
  yy : ℚ
deriving DecidableEq

/-- Matrix-vector product `M.mv(v, out)` of a `FieldMatrix`. -/
def mv2 (M : Mat2) (v : Vec2) : Vec2 :=
  ⟨M.xx * v.x + M.xy * v.y, M.yx * v.x + M.yy * v.y⟩

/-- Scalar product `u*v` of two `FieldVector`s. -/
def dot2 (u v : Vec2) : ℚ :=
  u.x * v.x + u.y * v.y

/-- Vector negation. -/
def vneg2 (v : Vec2) : Vec2 :=
  ⟨-v.x, -v.y⟩

/-- The per-cell quantities `computeFlux` reads from a `VolumeVariables`
object: `density()`, `viscosity()` and `concentration(1)`. -/
structure VolVars1p2c where
  density : ℚ
  viscosity : ℚ
  conc : ℚ
deriving DecidableEq

/-- The per-face quantities `computeFlux` reads from the `FluxVariables`
object it constructs: `intrinsicPermeability()`, `potentialGrad()`,
`face().normal`, `concentrationGrad(1)`, `dispersionTensor()`,
`porousDiffCoeff()`, and the volume variables of the two adjacent
sub-control volumes `i` and `j`. -/
structure FluxFace where
  K : Mat2
  potentialGrad : Vec2
  normal : Vec2
  concentrationGrad : Vec2
  dispersionTensor : Mat2
  porousDiffCoeff : ℚ
  iVars : VolVars1p2c
  jVars : VolVars1p2c
deriving DecidableEq

/-- Modelled from the spec: `FluxVariables::upstreamIdx(normalFlux)`
(1p2cfluxvariables.hh is not among the sources).  Per the upwind
rule, the CV on the side from which the potential gradient points is the
upstream CV; for a non-negative normal flux from `i` to `j` this is `i`. -/
def upwindVars (i j : VolVars1p2c) (normalFlux : ℚ) : VolVars1p2c :=
  if 0 ≤ normalFlux then i else j

/-- Modelled from the spec: `FluxVariables::downstreamIdx(normalFlux)`, the
CV opposite to the upstream one. -/
def downwindVars (i j : VolVars1p2c) (normalFlux : ℚ) : VolVars1p2c :=
  if 0 ≤ normalFlux then j else i

/-- The advective flux of the continuity equation as computed by
`computeFlux` (before the final overall negation): the normal flux times
the upwind-weighted mobility blend. -/
def advContiFlux (alpha : ℚ) (i j : VolVars1p2c) (nf : ℚ) : ℚ :=
  nf * (alpha * (upwindVars i j nf).density / (upwindVars i j nf).viscosity
        + (1 - alpha) * (downwindVars i j nf).density / (downwindVars i j nf).viscosity)

/-- `OnePTwoCLocalResidual::computeFlux(flux, faceId)`: returns the pair
(`flux[contiEqIdx]`, `flux[transEqIdx]`).  The fixed upwind-weighting
coefficient `UpwindAlpha` is passed as `alpha`. -/
def computeFlux (alpha : ℚ) (fc : FluxFace) : ℚ × ℚ :=
  let tmpVec := mv2 fc.K fc.potentialGrad
  let normalFlux := -(dot2 tmpVec fc.normal)
  let up := upwindVars fc.iVars fc.jVars normalFlux
  let dn := downwindVars fc.iVars fc.jVars normalFlux
  let fluxConti := advContiFlux alpha fc.iVars fc.jVars normalFlux
  let c := (up.conc + dn.conc) / 2
  let fluxTrans :=
    normalFlux * (alpha * up.conc / up.viscosity + (1 - alpha) * dn.conc / dn.viscosity)
    + c * fc.porousDiffCoeff * (dot2 fc.concentrationGrad fc.normal)
    + c * (dot2 (mv2 fc.dispersionTensor fc.normal) fc.concentrationGrad)
  (-fluxConti, -fluxTrans)

/-- Swapping the roles of the two cells adjacent to a face: the cell data
of `i` and `j` are exchanged and the face normal is flipped; the gradients
and face tensors are geometric quantities of the same face and stay put. -/
def swapFace (fc : FluxFace) : FluxFace :=
  { fc with iVars := fc.jVars, jVars := fc.iVars, normal := vneg2 fc.normal }

/-- Helper: the scalar product is odd in its second argument. -/
lemma dot2_vneg2 (u v : Vec2) : dot2 u (vneg2 v) = -(dot2 u v) := by
  simp only [dot2, vneg2]; ring

/-- Helper: the scalar product is odd in its first argument. -/
lemma vneg2_dot2 (u v : Vec2) : dot2 (vneg2 u) v = -(dot2 u v) := by
  simp only [dot2, vneg2]; ring

/-- Helper: matrix-vector products are odd in the vector argument. -/
lemma mv2_vneg2 (M : Mat2) (v : Vec2) : mv2 M (vneg2 v) = vneg2 (mv2 M v) := by
  simp only [mv2, vneg2]
  congr 1 <;> ring

/-- The ε-δ formulation of continuity at a point for rational-valued
functions of one rational variable. -/
def ContinuousAtQ (g : ℚ → ℚ) (a : ℚ) : Prop :=
  ∀ eps : ℚ, 0 < eps → ∃ delta : ℚ, 0 < delta ∧
    ∀ z : ℚ, |z - a| < delta → |g z - g a| < eps

/-- Helper: a function that vanishes at 0 and is linear with (possibly
different) slopes on each side of 0 is continuous at 0. -/
lemma piecewise_linear_continuousAt_zero (g : ℚ → ℚ) (bp bn : ℚ)
    (hg0 : g 0 = 0)
    (hpos : ∀ z : ℚ, 0 ≤ z → g z = z * bp)
    (hneg : ∀ z : ℚ, ¬ 0 ≤ z → g z = z * bn) :
    ContinuousAtQ g 0 := by
  intro eps heps
  refine ⟨eps / (|bp| + |bn| + 1), by positivity, ?_⟩
  intro z hz
  rw [sub_zero] at hz
  rw [hg0, sub_zero]
  have habs : |g z| ≤ |z| * (|bp| + |bn|) := by
    by_cases h : 0 ≤ z
    · rw [hpos z h, abs_mul]
      exact mul_le_mul_of_nonneg_left (le_add_of_nonneg_right (abs_nonneg _)) (abs_nonneg _)
    · rw [hneg z h, abs_mul]
      exact mul_le_mul_of_nonneg_left (le_add_of_nonneg_left (abs_nonneg _)) (abs_nonneg _)
  have h2 : |z| * (|bp| + |bn|) ≤ (eps / (|bp| + |bn| + 1)) * (|bp| + |bn|) :=
    mul_le_mul_of_nonneg_right (le_of_lt hz) (by positivity)
  have h3 : (eps / (|bp| + |bn| + 1)) * (|bp| + |bn|) < eps := by
    rw [div_mul_eq_mul_div, div_lt_iff₀ (by positivity)]
    have hexp : eps * (|bp| + |bn| + 1) = eps * (|bp| + |bn|) + eps := by ring
    rw [hexp]
    linarith
  calc |g z| ≤ |z| * (|bp| + |bn|) := habs
    _ ≤ (eps / (|bp| + |bn| + 1)) * (|bp| + |bn|) := h2
    _ < eps := h3

/-! ## FVPressure1P (fvpressure1p.hh): upwind density selection -/

/-- The upwind selection of the density in `FVPressure1P::assemble`
(used both on the stored potential inside the `!first` branch and on the
final potential):
`density = (potential > 0.) ? densityI : densityJ;`
`density = (potential == 0) ? rhoMean : density;`
with `rhoMean = 0.5 * (densityI + densityJ)`. -/
def upwindDensity (densityI densityJ potential : ℚ) : ℚ :=
  let rhoMean := (1 / 2 : ℚ) * (densityI + densityJ)
  let density := if 0 < potential then densityI else densityJ
  if potential = 0 then rhoMean else density

/-! ### The assembly loop of `FVPressure1P::assemble`

The grid is one-dimensional (`dim = dimWorld = 1`), so vectors and the
permeability tensor are scalars and `unitOuterNormal` is `±1`.  A cell
carries the data `assemble` obtains from the problem: its center and
volume, `Fluid::density`/`Fluid::viscosity` at its temperature and
reference pressure, and its source value.  Each intersection of a cell is
interior (with the index of the neighbor, center and density and the
`meanK`-averaged permeability), a Dirichlet boundary face, or a Neumann
boundary face. -/

/-- Per-cell input data of the assembly loop. -/
structure CellData where
  center : ℚ
  volume : ℚ
  density : ℚ
  viscosity : ℚ
  source : ℚ
deriving DecidableEq

/-- One intersection of a cell, as classified by the assembly loop. -/
inductive Intersection1D where
  | interior (j : ℕ) (normal faceArea neighborCenter meanPerm densityJ : ℚ)
  | dirichletB (normal faceArea faceCenter meanPerm pressBound : ℚ)
  | neumannB (faceArea neumannValue : ℚ)
deriving DecidableEq

/-- The global state written by `assemble`: the pressure matrix `A_`, the
right-hand side `f_`, and the stored potentials
`problem.variables().potential(globalIdx, isIndex)`. -/
structure AsmState where
  A : ℕ → ℕ → ℚ
  f : ℕ → ℚ
  pot : ℕ → ℕ → ℚ

/-- The body of the intersection loop of `FVPressure1P::assemble` for cell
`i` (current intersection counter `isIndex`), covering the interior-face,
Dirichlet and Neumann branches. -/
def processIntersection (gravity : ℚ) (first : Bool) (pressure : ℕ → ℚ)
    (cell : CellData) (i isIndex : ℕ) (st : AsmState) :
    Intersection1D → AsmState
  | .interior j normal faceArea neighborCenter meanPerm densityJ =>
    let dist := |neighborCenter - cell.center|
    let permeability := meanPerm * normal / cell.viscosity
    let stPot :=
      if first then st
      else
        let density0 := upwindDensity cell.density densityJ (st.pot i isIndex)
        let potNew := (pressure i - pressure j) / dist + density0 * (normal * gravity)
        { st with pot := updFun2 st.pot i isIndex potNew }
    let potential := if first then 0 else stPot.pot i isIndex
    let density := upwindDensity cell.density densityJ potential
    let entry := permeability * normal / dist * faceArea
    let rightEntry := density * (permeability * gravity) * faceArea
    let f1 := updFun stPot.f i (stPot.f i - rightEntry)
    let A1 := updFun2 stPot.A i i (stPot.A i i + entry)
    let A2 := updFun2 A1 i j (-entry)
    { stPot with A := A2, f := f1 }
  | .dirichletB normal faceArea faceCenter meanPerm pressBound =>
    let dist := |faceCenter - cell.center|
    let permeability := meanPerm * normal / cell.viscosity
    let entry := permeability * normal / dist * faceArea
    let rightEntry := cell.density * (permeability * gravity) * faceArea
    let A1 := updFun2 st.A i i (st.A i i + entry)
    let f1 := updFun st.f i (st.f i + entry * pressBound)
    let f2 := updFun f1 i (f1 i - rightEntry)
    { st with A := A1, f := f2 }
  | .neumannB faceArea neumannValue =>
    let J := neumannValue / cell.density
    { st with f := updFun st.f i (st.f i - J * faceArea) }

/-- The body of the element loop of `FVPressure1P::assemble` for cell `i`:
sets `f_[i] = (source / densityI) * volume` and then runs the intersection
loop. -/
def assembleCell (gravity : ℚ) (first : Bool) (pressure : ℕ → ℚ)
    (st : AsmState) (i : ℕ) (cell : CellData) (inters : List Intersection1D) : AsmState :=
  let st0 := { st with f := updFun st.f i (cell.source / cell.density * cell.volume) }
  foldIdx (fun isIndex s is => processIntersection gravity first pressure cell i isIndex s is)
    0 st0 inters

/-- `FVPressure1P::assemble(first)`: zeroes `A_` and `f_` and runs the
element loop over all cells (cell `i` of the list has global index `i`).
The previous pressure iterate and the stored potentials are inputs. -/
def assemble (gravity : ℚ) (first : Bool) (pressure : ℕ → ℚ) (pot0 : ℕ → ℕ → ℚ)
    (cells : List (CellData × List Intersection1D)) : AsmState :=
  foldIdx (fun i st cell => assembleCell gravity first pressure st i cell.1 cell.2) 0
    ⟨fun _ _ => 0, fun _ => 0, pot0⟩ cells

/-! ### `setPressureHard` and the hard-constraint preamble of `solve` -/

/-- The members of `FVPressure1P` relevant to the hard pressure
constraint, as initialized by the constructor
(`pressHard_(0), idxPressHard_(0), setPressHard_(false)`). -/
structure FVP1State where
  A : ℕ → ℕ → ℚ
  f : ℕ → ℚ
  pressHard : ℚ
  idxPressHard : ℕ
  setPressHard : Bool

/-- Wraps an assembled system into the solver state with the
constructor defaults for the hard-constraint members. -/
def mkFVP1 (asm : AsmState) : FVP1State :=
  ⟨asm.A, asm.f, 0, 0, false⟩

/-- `FVPressure1P::setPressureHard(pressure, globalIdx)`. -/
def setPressureHard (st : FVP1State) (pressure : ℚ) (globalIdx : ℕ) : FVP1State :=
  { st with setPressHard := true, pressHard := pressure, idxPressHard := globalIdx }

/-- The hard-constraint preamble of `FVPressure1P::solve` (executed right
before the linear solver is invoked): when `setPressHard_` is set, the row
`A_[idxPressHard_]` is zeroed, its diagonal becomes 1, and
`f_[idxPressHard_]` becomes `pressHard_`. -/
def solveSystemSetup (st : FVP1State) : FVP1State :=
  if st.setPressHard then
    { st with
      A := fun a b =>
        if a = st.idxPressHard then (if b = st.idxPressHard then 1 else 0) else st.A a b
      f := updFun st.f st.idxPressHard st.pressHard }
  else st

/-! ### Concrete grids used by the theorems -/

/-- A 1-D grid of two unit cells with centers 1/2 and 3/2; cell 0 has a
Dirichlet boundary face (prescribed pressure 5) at position 0, cell 1 a
zero-flux Neumann boundary face.  Unit permeability, viscosity and
density, zero source, zero gravity. -/
def grid2 : List (CellData × List Intersection1D) :=
  [(⟨1/2, 1, 1, 1, 0⟩,
    [Intersection1D.dirichletB (-1) 1 0 1 5,
     Intersection1D.interior 1 1 1 (3/2) 1 1]),
   (⟨3/2, 1, 1, 1, 0⟩,
    [Intersection1D.interior 0 (-1) 1 (1/2) 1 1,
     Intersection1D.neumannB 1 0])]

/-- The system assembled (with `first = true`) on `grid2`. -/
def dirich2State : AsmState :=
  assemble 0 true (fun _ => 0) (fun _ _ => 0) grid2

/-- A 1-D grid of three unit cells with centers 1/2, 3/2, 5/2 and zero-flux
Neumann boundary faces on both ends (a pure-Neumann configuration): the
assembled system is singular.  Unit permeability, viscosity and density,
zero source, zero gravity. -/
def grid3 : List (CellData × List Intersection1D) :=
  [(⟨1/2, 1, 1, 1, 0⟩,
    [Intersection1D.neumannB 1 0,
     Intersection1D.interior 1 1 1 (3/2) 1 1]),
   (⟨3/2, 1, 1, 1, 0⟩,
    [Intersection1D.interior 0 (-1) 1 (1/2) 1 1,
     Intersection1D.interior 2 1 1 (5/2) 1 1]),
   (⟨5/2, 1, 1, 1, 0⟩,
    [Intersection1D.interior 1 (-1) 1 (3/2) 1 1,
     Intersection1D.neumannB 1 0])]

/-- The system assembled (with `first = true`) on `grid3`. -/
def neumann3State : AsmState :=
  assemble 0 true (fun _ => 0) (fun _ _ => 0) grid3

/-- The solver state for `grid3` after `setPressureHard(v, 1)` and the
hard-constraint preamble of `solve`. -/
def hard3 (v : ℚ) : FVP1State :=
  solveSystemSetup (setPressureHard (mkFVP1 neumann3State) v 1)

/-- The row/vector product of a 3-DOF system. -/
def rowMul3 (A : ℕ → ℕ → ℚ) (x : ℕ → ℚ) (i : ℕ) : ℚ :=
  A i 0 * x 0 + A i 1 * x 1 + A i 2 * x 2

/-! ## EcfvDiscretization (ecfvdiscretization.hh) -/

/-- The `LinearizeNonLocalElements` property specialization for
`TTag::EcfvDiscretization` (ghost/overlap elements must be assembled). -/
def ecfvLinearizeNonLocalElements : Bool := true

/-- The `UseLinearizationLock` property specialization for
`TTag::EcfvDiscretization` (no locking: each matrix/vector entry is written
exactly once). -/
def ecfvUseLinearizationLock : Bool := false

/-- The solution history of the model: one solution vector per time index
(0 = current, 1 = previous time step). -/
structure EcfvModelState (SV : Type) where
  solution : ℕ → SV

/-- Modelled from the spec: `Restarter::deserializeEntities` (not among the
sources; per the serialization interface of the spec it reads the
checkpointed per-element primary variables back in, i.e. it fills the
current solution, time index 0). -/
def deserializeEntities {SV : Type} (readCheckpoint : SV → SV)
    (m : EcfvModelState SV) : EcfvModelState SV :=
  ⟨fun t => if t = 0 then readCheckpoint (m.solution 0) else m.solution t⟩

/-- `EcfvDiscretization::deserialize`: first `res.deserializeEntities`, then
`this->solution(timeIdx=1) = this->solution(timeIdx=0)`. -/
def ecfvDeserialize {SV : Type} (readCheckpoint : SV → SV)
    (m : EcfvModelState SV) : EcfvModelState SV :=
  let m1 := deserializeEntities readCheckpoint m
  ⟨fun t => if t = 1 then m1.solution 0 else m1.solution t⟩

/-! ## Theorems for claims C4, C7, C8, C9, C10 -/

/-- C4: after `saveScvVars(cv)`, an arbitrary modification of the context
that leaves the two saved slots alone (in particular any perturbation of
the time-level-0 primary variables and volume variables of `cv`), followed
by `restoreScvVars(cv)`, leaves the time-level-0 primary variables and
volume variables equal to their values at the moment of the save. -/
theorem saveRestoreScvVars_roundtrip (PV VV : Type) (c cMod : BoxCtx PV VV) (cv : ℕ)
    (hPri : cMod.priVarsSaved = (saveScvVars c cv).priVarsSaved)
    (hVol : cMod.scvVarsSaved = (saveScvVars c cv).scvVarsSaved) :
    (restoreScvVars cMod cv).priVars cv 0 = c.priVars cv 0 ∧
    (restoreScvVars cMod cv).volVars cv 0 = c.volVars cv 0 := by
  constructor
  · show updFun2 cMod.priVars cv 0 cMod.priVarsSaved cv 0 = c.priVars cv 0
    simp [updFun2, hPri, saveScvVars]
  · show updFun2 cMod.volVars cv 0 cMod.scvVarsSaved cv 0 = c.volVars cv 0
    simp [updFun2, hVol, saveScvVars]

/-- C4 witness: a concrete save/perturb/restore round trip. -/
theorem saveRestoreScvVars_roundtrip_witness :
    (restoreScvVars
      { saveScvVars (⟨fun _ _ => (3 : ℕ), fun _ _ => (5 : ℕ), 0, 0, 0⟩ : BoxCtx ℕ ℕ) 2 with
        priVars := fun _ _ => 98, volVars := fun _ _ => 99 } 2).priVars 2 0 = 3 ∧
    (restoreScvVars
      { saveScvVars (⟨fun _ _ => (3 : ℕ), fun _ _ => (5 : ℕ), 0, 0, 0⟩ : BoxCtx ℕ ℕ) 2 with
        priVars := fun _ _ => 98, volVars := fun _ _ => 99 } 2).volVars 2 0 = 5 :=
  saveRestoreScvVars_roundtrip ℕ ℕ ⟨fun _ _ => 3, fun _ _ => 5, 0, 0, 0⟩ _ 2 rfl rfl

/-- C7: `updateFVElemGeom` treats the context buffers as grow-only: a call
whose vertex/edge counts do not exceed the current buffer sizes leaves both
sizes unchanged, a single call never shrinks either buffer, and across any
sequence of calls both buffer sizes are monotonically non-decreasing. -/
theorem updateFVElemGeom_grow_only (s : BufSizes) (nv ne : ℕ) (calls : List (ℕ × ℕ))
    (hnv : nv ≤ s.scvSize) (hne : ne ≤ s.scvfSize) :
    updateFVElemGeomSizes s nv ne = s ∧
    s.scvSize ≤ (updateFVElemGeomSizes s nv ne).scvSize ∧
    s.scvfSize ≤ (updateFVElemGeomSizes s nv ne).scvfSize ∧
    s.scvSize ≤ ((calls.foldl (fun st c => updateFVElemGeomSizes st c.1 c.2) s)).scvSize ∧
    s.scvfSize ≤ ((calls.foldl (fun st c => updateFVElemGeomSizes st c.1 c.2) s)).scvfSize := by
  refine ⟨?_, ?_, ?_, (bufSizes_foldl_mono calls s).1, (bufSizes_foldl_mono calls s).2⟩
  · have h1 : ¬ (nv > s.scvSize) := by omega
    have h2 : ¬ (ne > s.scvfSize) := by omega
    simp [updateFVElemGeomSizes, h1, h2]
  · simp only [updateFVElemGeomSizes]; split <;> omega
  · simp only [updateFVElemGeomSizes]; split <;> omega

/-- C7 witness: concrete non-exceeding call and a concrete call sequence. -/
theorem updateFVElemGeom_grow_only_witness :
    updateFVElemGeomSizes ⟨4, 6⟩ 3 2 = ⟨4, 6⟩ ∧
    (4 : ℕ) ≤ (updateFVElemGeomSizes ⟨4, 6⟩ 3 2).scvSize ∧
    (6 : ℕ) ≤ (updateFVElemGeomSizes ⟨4, 6⟩ 3 2).scvfSize ∧
    (4 : ℕ) ≤ (([(2, 2), (8, 1)] : List (ℕ × ℕ)).foldl
      (fun st c => updateFVElemGeomSizes st c.1 c.2) ⟨4, 6⟩).scvSize ∧
    (6 : ℕ) ≤ (([(2, 2), (8, 1)] : List (ℕ × ℕ)).foldl
      (fun st c => updateFVElemGeomSizes st c.1 c.2) ⟨4, 6⟩).scvfSize :=
  updateFVElemGeom_grow_only ⟨4, 6⟩ 3 2 [(2, 2), (8, 1)] (by decide) (by decide)

/-- C8: at most one sub-control volume of a context is perturbed:
`evalPointVolVars(scv, 0)` can differ from `volVars(scv, 0)` for at most one
index `scv` (the one recorded in `scvIdxSaved_`), and after a subsequent
`saveScvVars(j)` with `j ≠ i` the index `i` is no longer perturbed. -/
theorem single_perturbed_scv_invariant (PV VV : Type) (c : BoxCtx PV VV)
    (i j i2 j2 : ℕ)
    (hi : evalPointVolVars c i 0 ≠ c.volVars i 0)
    (hj : evalPointVolVars c j 0 ≠ c.volVars j 0)
    (hij : i2 ≠ j2) :
    i = j ∧ evalPointVolVars (saveScvVars c j2) i2 0 = c.volVars i2 0 := by
  have hsel : ∀ k : ℕ, evalPointVolVars c k 0 ≠ c.volVars k 0 → c.scvIdxSaved = (k : ℤ) := by
    intro k hk
    by_contra hne
    apply hk
    simp [evalPointVolVars, hne]
  constructor
  · have h1 := hsel i hi
    have h2 := hsel j hj
    have : (i : ℤ) = (j : ℤ) := h1 ▸ h2
    exact_mod_cast this
  · have hcast : ((j2 : ℤ) ≠ (i2 : ℤ)) := by
      intro h
      refine hij ?_
      exact_mod_cast h.symm
    simp [evalPointVolVars, saveScvVars, hcast]

/-- C8 witness: a concrete context with SCV 4 perturbed; saving SCV 0
unperturbs SCV 4. -/
theorem single_perturbed_scv_invariant_witness :
    (4 : ℕ) = 4 ∧
    evalPointVolVars
      (saveScvVars (⟨fun _ _ => (0 : ℕ), fun _ _ => (7 : ℕ), 4, 9, 0⟩ : BoxCtx ℕ ℕ) 0) 4 0 =
      (⟨fun _ _ => (0 : ℕ), fun _ _ => (7 : ℕ), 4, 9, 0⟩ : BoxCtx ℕ ℕ).volVars 4 0 :=
  single_perturbed_scv_invariant ℕ ℕ ⟨fun _ _ => 0, fun _ _ => 7, 4, 9, 0⟩ 4 4 4 0
    (by simp [evalPointVolVars]) (by simp [evalPointVolVars]) (by decide)

/-- C9: the element-centered finite-volume scheme declares its assembly
regime as fixed scheme properties: non-local (ghost/overlap) elements are
linearized, and no linearization lock is requested. -/
theorem ecfv_assembly_regime_flags :
    ecfvLinearizeNonLocalElements = true ∧ ecfvUseLinearizationLock = false :=
  ⟨rfl, rfl⟩

/-- C10: after `EcfvDiscretization::deserialize`, the solution at time
level 1 (previous time step) equals the solution at time level 0 (current
iterate), for every checkpoint-reading function and every prior model
state. -/
theorem ecfv_deserialize_copies_history (SV : Type) (readCheckpoint : SV → SV)
    (m : EcfvModelState SV) :
    (ecfvDeserialize readCheckpoint m).solution 1 =
      (ecfvDeserialize readCheckpoint m).solution 0 := by
  simp [ecfvDeserialize, deserializeEntities]

/-- C10 witness: concrete deserialization round trip. -/
theorem ecfv_deserialize_copies_history_witness :
    (ecfvDeserialize (fun v => v + 5) (⟨fun t => t⟩ : EcfvModelState ℕ)).solution 1 =
      (ecfvDeserialize (fun v => v + 5) (⟨fun t => t⟩ : EcfvModelState ℕ)).solution 0 :=
  ecfv_deserialize_copies_history ℕ (fun v => v + 5) ⟨fun t => t⟩

/-- C6: in the trace of `updateAll`, the geometry is bound first (position
0), every `FluxVariables::update` uses time level 0, every
`VolumeVariables::update` precedes every `FluxVariables::update`, and for
every control volume and every time level of the history window a
`VolumeVariables::update` occurs before any `FluxVariables::update`. -/
theorem updateAll_phase_order (H n m p q k t s u : ℕ)
    (hp : (updateAllTrace H n m).get? p = some (CtxEvent.updScvf k t))
    (hq : (updateAllTrace H n m).get? q = some (CtxEvent.updScv s u)) :
    q < p ∧ t = 0 ∧ (updateAllTrace H n m).get? 0 = some CtxEvent.bindGeom ∧
    (∀ t2 s2 : ℕ, t2 < H → s2 < n →
      ∃ r, r < p ∧ (updateAllTrace H n m).get? r = some (CtxEvent.updScv s2 t2)) := by
  cases p with
  | zero => simp [updateAllTrace] at hp
  | succ pp =>
    cases q with
    | zero => simp [updateAllTrace] at hq
    | succ qq =>
      simp only [updateAllTrace, List.get?_cons_succ] at hp hq
      have hpA : (updateAllScvVarsTrace H n).length ≤ pp := by
        by_contra hlt
        push_neg at hlt
        rw [List.get?_append hlt] at hp
        obtain ⟨s3, t3, he⟩ := mem_updateAllScvVarsTrace (List.get?_mem hp)
        exact CtxEvent.noConfusion he
      have hqA : qq < (updateAllScvVarsTrace H n).length := by
        by_contra hge
        push_neg at hge
        rw [List.get?_append_right hge] at hq
        obtain ⟨k3, he⟩ := mem_updateAllScvfVarsTrace (List.get?_mem hq)
        exact CtxEvent.noConfusion he
      have ht0 : t = 0 := by
        rw [List.get?_append_right hpA] at hp
        obtain ⟨k3, he⟩ := mem_updateAllScvfVarsTrace (List.get?_mem hp)
        injection he with h1 h2
      refine ⟨by omega, ht0, rfl, ?_⟩
      intro t2 s2 ht2 hs2
      have hmem : CtxEvent.updScv s2 t2 ∈ updateAllScvVarsTrace H n := by
        simp only [updateAllScvVarsTrace, updateScvVarsTrace, List.mem_flatMap,
          List.mem_map, List.mem_range]
        exact ⟨t2, ht2, s2, hs2, rfl⟩
      obtain ⟨ridx, hr⟩ := List.get?_of_mem hmem
      have hrlt : ridx < (updateAllScvVarsTrace H n).length := (List.get?_eq_some.mp hr).1
      refine ⟨ridx + 1, by omega, ?_⟩
      simp only [updateAllTrace, List.get?_cons_succ]
      rw [List.get?_append hrlt]
      exact hr

/-- C6 witness: the ordering on the concrete trace with one time level, one
control volume and one face. -/
theorem updateAll_phase_order_witness :
    1 < 2 ∧ 0 = 0 ∧ (updateAllTrace 1 1 1).get? 0 = some CtxEvent.bindGeom ∧
    (∀ t2 s2 : ℕ, t2 < 1 → s2 < 1 →
      ∃ r, r < 2 ∧ (updateAllTrace 1 1 1).get? r = some (CtxEvent.updScv s2 t2)) :=
  updateAll_phase_order 1 1 1 2 1 0 0 0 0 rfl rfl

/-- C2: for every face and every upwind coefficient, computing the flux
with the roles of cells `i` and `j` swapped (which flips the face normal
and exchanges upstream and downstream) negates both components of the
vector returned by `computeFlux` — flux antisymmetry for interior faces. -/
theorem computeFlux_antisymmetric (alpha : ℚ) (fc : FluxFace) :
    computeFlux alpha (swapFace fc) =
      (-(computeFlux alpha fc).1, -(computeFlux alpha fc).2) := by
  rcases lt_trichotomy (dot2 (mv2 fc.K fc.potentialGrad) fc.normal) 0 with hd | hd | hd
  · have h1 : ¬ ((0 : ℚ) ≤ dot2 (mv2 fc.K fc.potentialGrad) fc.normal) := not_le.mpr hd
    have h2 : (0 : ℚ) ≤ -(dot2 (mv2 fc.K fc.potentialGrad) fc.normal) := by linarith
    simp only [computeFlux, swapFace, advContiFlux, upwindVars, downwindVars,
      dot2_vneg2, mv2_vneg2, vneg2_dot2, neg_neg, if_pos h2, if_neg h1,
      Prod.mk.injEq]
    constructor <;> ring
  · have h1 : (0 : ℚ) ≤ dot2 (mv2 fc.K fc.potentialGrad) fc.normal := le_of_eq hd.symm
    have h2 : (0 : ℚ) ≤ -(dot2 (mv2 fc.K fc.potentialGrad) fc.normal) := by
      rw [hd]; simp
    simp only [computeFlux, swapFace, advContiFlux, upwindVars, downwindVars,
      dot2_vneg2, mv2_vneg2, vneg2_dot2, neg_neg, if_pos h2, if_pos h1,
      Prod.mk.injEq, hd]
    constructor <;> ring_nf
  · have h1 : (0 : ℚ) ≤ dot2 (mv2 fc.K fc.potentialGrad) fc.normal := le_of_lt hd
    have h2 : ¬ ((0 : ℚ) ≤ -(dot2 (mv2 fc.K fc.potentialGrad) fc.normal)) := by
      rw [not_le]; linarith
    simp only [computeFlux, swapFace, advContiFlux, upwindVars, downwindVars,
      dot2_vneg2, mv2_vneg2, vneg2_dot2, neg_neg, if_pos h1, if_neg h2,
      Prod.mk.injEq]
    constructor <;> ring

/-- C2 witness: the antisymmetry at one concrete face. -/
theorem computeFlux_antisymmetric_witness :
    computeFlux (1 / 2)
        (swapFace ⟨⟨1, 0, 0, 1⟩, ⟨2, 1⟩, ⟨1, 0⟩, ⟨1, 1⟩, ⟨1, 0, 0, 1⟩, 3, ⟨2, 5, 7⟩, ⟨4, 3, 1⟩⟩) =
      (-(computeFlux (1 / 2)
          ⟨⟨1, 0, 0, 1⟩, ⟨2, 1⟩, ⟨1, 0⟩, ⟨1, 1⟩, ⟨1, 0, 0, 1⟩, 3, ⟨2, 5, 7⟩, ⟨4, 3, 1⟩⟩).1,
       -(computeFlux (1 / 2)
          ⟨⟨1, 0, 0, 1⟩, ⟨2, 1⟩, ⟨1, 0⟩, ⟨1, 1⟩, ⟨1, 0, 0, 1⟩, 3, ⟨2, 5, 7⟩, ⟨4, 3, 1⟩⟩).2) :=
  computeFlux_antisymmetric (1 / 2)
    ⟨⟨1, 0, 0, 1⟩, ⟨2, 1⟩, ⟨1, 0⟩, ⟨1, 1⟩, ⟨1, 0, 0, 1⟩, 3, ⟨2, 5, 7⟩, ⟨4, 3, 1⟩⟩

/-- C3 counterexample: the claim asserts that the tie rule makes the
blended quantity continuous in the primary variables; but the upwinded
density of `FVPressure1P::assemble` (which multiplies the gravity term of
the flux) is discontinuous at zero potential whenever the two cell
densities differ — at `densityI = 1`, `densityJ = 3` it takes the value 2
at zero potential while being 1 at every positive potential. -/
theorem upwindDensity_discontinuous_counterexample :
    upwindDensity 1 3 0 = 2 ∧
    ¬ ContinuousAtQ (fun potential => upwindDensity 1 3 potential) 0 := by
  have hval : upwindDensity 1 3 0 = 2 := by norm_num [upwindDensity]
  refine ⟨hval, ?_⟩
  intro h
  obtain ⟨delta, hdelta, hcont⟩ := h (1 / 2) (by norm_num)
  have hpos : 0 < delta / 2 := by linarith
  have hne : delta / 2 ≠ 0 := ne_of_gt hpos
  have habs : |delta / 2 - 0| < delta := by
    rw [sub_zero, abs_of_pos hpos]
    linarith
  have h1 := hcont (delta / 2) habs
  have e1 : upwindDensity 1 3 (delta / 2) = 1 := by
    simp [upwindDensity, hne, hpos]
  simp only [e1, hval] at h1
  norm_num at h1

/-- C3 (amended): when the potential across a face is exactly zero the
upwinded density of `FVPressure1P::assemble` equals the arithmetic mean of
the two cell densities, and the advective flux of
`OnePTwoCLocalResidual::computeFlux` — where the upwind blend is multiplied
by the vanishing normal flux — equals the central value 0 at a tie and is
continuous in the normal flux there.  (The upwinded density itself, hence
the gravity flux term of the assembler, is *not* continuous at zero potential;
see the counterexample.) -/
theorem upwindDensity_tie_mean_amended :
    (∀ densityI densityJ : ℚ,
      upwindDensity densityI densityJ 0 = (1 / 2) * (densityI + densityJ)) ∧
    (∀ alpha : ℚ, ∀ iV jV : VolVars1p2c,
      advContiFlux alpha iV jV 0 = 0 ∧ ContinuousAtQ (advContiFlux alpha iV jV) 0) := by
  constructor
  · intro densityI densityJ
    simp [upwindDensity]
  · intro alpha iV jV
    refine ⟨by simp [advContiFlux], ?_⟩
    apply piecewise_linear_continuousAt_zero _
      (alpha * iV.density / iV.viscosity + (1 - alpha) * jV.density / jV.viscosity)
      (alpha * jV.density / jV.viscosity + (1 - alpha) * iV.density / iV.viscosity)
    · simp [advContiFlux]
    · intro z hz
      simp only [advContiFlux, upwindVars, downwindVars, if_pos hz]
    · intro z hz
      simp only [advContiFlux, upwindVars, downwindVars, if_neg hz]

/-- C3 witness: the amended claim at concrete inputs. -/
theorem upwindDensity_tie_mean_amended_witness :
    upwindDensity 1 3 0 = 2 ∧ advContiFlux (1 / 2) ⟨2, 5, 7⟩ ⟨4, 3, 1⟩ 0 = 0 := by
  constructor
  · rw [(upwindDensity_tie_mean_amended).1 1 3]
    norm_num
  · exact ((upwindDensity_tie_mean_amended).2 (1 / 2) ⟨2, 5, 7⟩ ⟨4, 3, 1⟩).1

/-- C1 counterexample: on `grid2`, the row of the Dirichlet-constrained
cell 0 after `assemble` is *not* an identity row: its off-diagonal entry is
`-1` (the interior-face transmissibility), its diagonal is `3` (not 1), and
its residual entry is `10` (transmissibility times prescribed pressure, not
the prescribed pressure 5). -/
theorem assemble_dirichlet_identity_row_counterexample :
    dirich2State.A 0 1 = -1 ∧ dirich2State.A 0 0 = 3 ∧ dirich2State.f 0 = 10 ∧
    ¬ (dirich2State.A 0 1 = 0 ∧ dirich2State.A 0 0 = 1 ∧ dirich2State.f 0 = 5) := by
  have h1 : dirich2State.A 0 1 = -1 := by
    norm_num [dirich2State, assemble, assembleCell, processIntersection, foldIdx,
      updFun, updFun2, upwindDensity, grid2, abs_of_pos, abs_of_neg]
  have h2 : dirich2State.A 0 0 = 3 := by
    norm_num [dirich2State, assemble, assembleCell, processIntersection, foldIdx,
      updFun, updFun2, upwindDensity, grid2, abs_of_pos, abs_of_neg]
  have h3 : dirich2State.f 0 = 10 := by
    norm_num [dirich2State, assemble, assembleCell, processIntersection, foldIdx,
      updFun, updFun2, upwindDensity, grid2, abs_of_pos, abs_of_neg]
  refine ⟨h1, h2, h3, ?_⟩
  rintro ⟨c1, -, -⟩
  rw [h1] at c1
  norm_num at c1

/-- C1 (amended): after `assemble`, the row of a Dirichlet-constrained DOF keeps
the off-diagonal flux contributions of its interior faces; the Dirichlet
face only adds its transmissibility to the diagonal and transmissibility
times the prescribed pressure to the residual.  An identity-row replacement
(single nonzero diagonal entry 1, residual equal to the prescribed value)
is applied only to the hard-constraint DOF of `setPressureHard`, inside
`solve`, after assembly — so only there it overrides all prior flux
contributions. -/
theorem assemble_dirichlet_row_amended (v : ℚ) :
    (dirich2State.A 0 0 = 3 ∧ dirich2State.A 0 1 = -1 ∧ dirich2State.f 0 = 2 * 5) ∧
    ((∀ j : ℕ, (solveSystemSetup (setPressureHard (mkFVP1 dirich2State) v 0)).A 0 j
        = if j = 0 then 1 else 0) ∧
      (solveSystemSetup (setPressureHard (mkFVP1 dirich2State) v 0)).f 0 = v) := by
  refine ⟨⟨?_, ?_, ?_⟩, ⟨?_, ?_⟩⟩
  · norm_num [dirich2State, assemble, assembleCell, processIntersection, foldIdx,
      updFun, updFun2, upwindDensity, grid2, abs_of_pos, abs_of_neg]
  · norm_num [dirich2State, assemble, assembleCell, processIntersection, foldIdx,
      updFun, updFun2, upwindDensity, grid2, abs_of_pos, abs_of_neg]
  · norm_num [dirich2State, assemble, assembleCell, processIntersection, foldIdx,
      updFun, updFun2, upwindDensity, grid2, abs_of_pos, abs_of_neg]
  · intro j
    simp [solveSystemSetup, setPressureHard, mkFVP1]
  · simp [solveSystemSetup, setPressureHard, mkFVP1, updFun]

/-- C1 witness: the amended hard-override part at a concrete value. -/
theorem assemble_dirichlet_row_amended_witness :
    (solveSystemSetup (setPressureHard (mkFVP1 dirich2State) 4 0)).A 0 1 = 0 ∧
    (solveSystemSetup (setPressureHard (mkFVP1 dirich2State) 4 0)).f 0 = 4 := by
  have h := assemble_dirichlet_row_amended 4
  refine ⟨?_, h.2.2⟩
  have h2 := h.2.1 1
  simpa using h2

/-- C5: on the pure-Neumann grid `grid3` (a singular assembled system),
after `setPressureHard(v, 1)` the preamble of `solve` replaces row 1 by the
identity row with residual `v`, and every solution of the resulting linear
system is uniform and equal to `v` at every cell. -/
theorem setPressureHard_solve_identity_row (v : ℚ) (x : ℕ → ℚ)
    (h0 : rowMul3 (hard3 v).A x 0 = (hard3 v).f 0)
    (h1 : rowMul3 (hard3 v).A x 1 = (hard3 v).f 1)
    (h2 : rowMul3 (hard3 v).A x 2 = (hard3 v).f 2) :
    ((hard3 v).A 1 0 = 0 ∧ (hard3 v).A 1 1 = 1 ∧ (hard3 v).A 1 2 = 0 ∧
      (hard3 v).f 1 = v) ∧
    (x 0 = v ∧ x 1 = v ∧ x 2 = v) := by
  have e00 : (hard3 v).A 0 0 = 1 := by
    norm_num [hard3, solveSystemSetup, setPressureHard, mkFVP1, neumann3State,
      assemble, assembleCell, processIntersection, foldIdx, updFun, updFun2,
      upwindDensity, grid3, abs_of_pos, abs_of_neg]
  have e01 : (hard3 v).A 0 1 = -1 := by
    norm_num [hard3, solveSystemSetup, setPressureHard, mkFVP1, neumann3State,
      assemble, assembleCell, processIntersection, foldIdx, updFun, updFun2,
      upwindDensity, grid3, abs_of_pos, abs_of_neg]
  have e02 : (hard3 v).A 0 2 = 0 := by
    norm_num [hard3, solveSystemSetup, setPressureHard, mkFVP1, neumann3State,
      assemble, assembleCell, processIntersection, foldIdx, updFun, updFun2,
      upwindDensity, grid3, abs_of_pos, abs_of_neg]
  have ef0 : (hard3 v).f 0 = 0 := by
    norm_num [hard3, solveSystemSetup, setPressureHard, mkFVP1, neumann3State,
      assemble, assembleCell, processIntersection, foldIdx, updFun, updFun2,
      upwindDensity, grid3, abs_of_pos, abs_of_neg]
  have e10 : (hard3 v).A 1 0 = 0 := by
    norm_num [hard3, solveSystemSetup, setPressureHard, mkFVP1]
  have e11 : (hard3 v).A 1 1 = 1 := by
    norm_num [hard3, solveSystemSetup, setPressureHard, mkFVP1]
  have e12 : (hard3 v).A 1 2 = 0 := by
    norm_num [hard3, solveSystemSetup, setPressureHard, mkFVP1]
  have ef1 : (hard3 v).f 1 = v := by
    norm_num [hard3, solveSystemSetup, setPressureHard, mkFVP1, updFun]
  have e20 : (hard3 v).A 2 0 = 0 := by
    norm_num [hard3, solveSystemSetup, setPressureHard, mkFVP1, neumann3State,
      assemble, assembleCell, processIntersection, foldIdx, updFun, updFun2,
      upwindDensity, grid3, abs_of_pos, abs_of_neg]
  have e21 : (hard3 v).A 2 1 = -1 := by
    norm_num [hard3, solveSystemSetup, setPressureHard, mkFVP1, neumann3State,
      assemble, assembleCell, processIntersection, foldIdx, updFun, updFun2,
      upwindDensity, grid3, abs_of_pos, abs_of_neg]
  have e22 : (hard3 v).A 2 2 = 1 := by
    norm_num [hard3, solveSystemSetup, setPressureHard, mkFVP1, neumann3State,
      assemble, assembleCell, processIntersection, foldIdx, updFun, updFun2,
      upwindDensity, grid3, abs_of_pos, abs_of_neg]
  have ef2 : (hard3 v).f 2 = 0 := by
    norm_num [hard3, solveSystemSetup, setPressureHard, mkFVP1, neumann3State,
      assemble, assembleCell, processIntersection, foldIdx, updFun, updFun2,
      upwindDensity, grid3, abs_of_pos, abs_of_neg]
  simp only [rowMul3] at h0 h1 h2
  rw [e00, e01, e02, ef0] at h0
  rw [e10, e11, e12, ef1] at h1
  rw [e20, e21, e22, ef2] at h2
  refine ⟨⟨e10, e11, e12, ef1⟩, ?_, ?_, ?_⟩ <;> linarith

/-- C5 witness: the uniform solution at `v = 7`. -/
theorem setPressureHard_solve_identity_row_witness :
    (((hard3 7).A 1 0 = 0 ∧ (hard3 7).A 1 1 = 1 ∧ (hard3 7).A 1 2 = 0 ∧
        (hard3 7).f 1 = 7) ∧
      ((fun _ => (7 : ℚ)) 0 = 7 ∧ (fun _ => (7 : ℚ)) 1 = 7 ∧ (fun _ => (7 : ℚ)) 2 = 7)) :=
  setPressureHard_solve_identity_row 7 (fun _ => 7)
    (by norm_num [rowMul3, hard3, solveSystemSetup, setPressureHard, mkFVP1, neumann3State,
      assemble, assembleCell, processIntersection, foldIdx, updFun, updFun2,
      upwindDensity, grid3, abs_of_pos, abs_of_neg])
    (by norm_num [rowMul3, hard3, solveSystemSetup, setPressureHard, mkFVP1, neumann3State,
      assemble, assembleCell, processIntersection, foldIdx, updFun, updFun2,
      upwindDensity, grid3, abs_of_pos, abs_of_neg])
    (by norm_num [rowMul3, hard3, solveSystemSetup, setPressureHard, mkFVP1, neumann3State,
      assemble, assembleCell, processIntersection, foldIdx, updFun, updFun2,
      upwindDensity, grid3, abs_of_pos, abs_of_neg])
